import Mathlib

/-!
# Verification of the WebcamLEDLinux Arduino palette sketch

Shallow embedding of `src/arduino_palette_sketch/backup.cpp`: a serial
line framer, a palette command parser (`P:<n>:<hex6>:...`), a flat-color
parser (`r,g,b` via `sscanf "%d,%d,%d"`), and a two-phase loop
(drain all available serial bytes, then conditionally composite and
transmit one frame).

Machine-arithmetic notes:
* The calibration factors are C `float`s: `RED_FACTOR = 1.00`,
  `GREEN_FACTOR = 0.75`, `BLUE_FACTOR = 0.90`.  For every integer
  `v ∈ [0,255]`, `(int)(v * 1.00f) = v`, `(int)(v * 0.75f) = v*3/4` and
  `(int)(v * 0.90f) = v*9/10` (exact equalities of the IEEE-754 single
  computation with the Nat divisions, checked exhaustively over all 256
  inputs), so calibration is embedded as exact Nat arithmetic.
* `CRGB(int,int,int)` narrows each channel to `uint8_t`; this is the
  `% 256` in `compositePixel`.
* C strings are NUL-terminated; a drained line may contain an embedded
  NUL byte, which `strlen`/`strchr`/`sscanf` treat as the end of the
  string.  `toCStr` applies this cut once, at dispatch.
-/

namespace WebcamLED

def NUM_LEDS : Nat := 256
def MAX_PALETTE : Nat := 49

/-- The global mutable state of the sketch: render state, line buffer,
and the `leds` frame buffer. -/
structure St where
  paletteMode : Bool
  paletteSize : Nat
  pR : List Nat
  pG : List Nat
  pB : List Nat
  currentR : Nat
  currentG : Nat
  currentB : Nat
  needsUpdate : Bool
  buffer : List Char
  leds : List (Nat × Nat × Nat)
  deriving Repr, DecidableEq

/-- Startup state: C globals are zero-initialized and `setup` clears the
strip to black. -/
def initSt : St :=
  { paletteMode := false
    paletteSize := 0
    pR := List.replicate MAX_PALETTE 0
    pG := List.replicate MAX_PALETTE 0
    pB := List.replicate MAX_PALETTE 0
    currentR := 0
    currentG := 0
    currentB := 0
    needsUpdate := false
    buffer := []
    leds := List.replicate NUM_LEDS (0, 0, 0) }

/-- C-string view of a byte buffer: everything before the first NUL. -/
def toCStr (s : List Char) : List Char := s.takeWhile (fun c => c.toNat ≠ 0)

/-- Red calibration, `(int)(v * RED_FACTOR)` with `RED_FACTOR = 1.00f`: exact. -/
def calR (v : Nat) : Nat := v

/-- Green calibration, `(int)(v * GREEN_FACTOR)` with `GREEN_FACTOR = 0.75f`:
exact on `[0,255]`. -/
def calG (v : Nat) : Nat := v * 3 / 4

/-- Blue calibration, `(int)(v * BLUE_FACTOR)` with `BLUE_FACTOR = 0.90f`:
exact on `[0,255]`. -/
def calB (v : Nat) : Nat := v * 9 / 10

/-- Value of one hex nibble character, as computed by the branches of
`hexToByte`: `'0'..'9'`, `'A'..'F'`, `'a'..'f'`, anything else is `0`. -/
def hexNibble (c : Char) : Nat :=
  if 48 ≤ c.toNat ∧ c.toNat ≤ 57 then c.toNat - 48
  else if 65 ≤ c.toNat ∧ c.toNat ≤ 70 then c.toNat - 65 + 10
  else if 97 ≤ c.toNat ∧ c.toNat ≤ 102 then c.toNat - 97 + 10
  else 0

/-- The function `hexToByte(hi, lo)`: high nibble shifted left 4, or-ed with
the low nibble. -/
def hexToByte (hi lo : Char) : Nat := (hexNibble hi) <<< 4 ||| hexNibble lo

/-- C `isspace` characters skipped by `atoi` and `sscanf "%d"`. -/
def isSpaceC (c : Char) : Bool :=
  c.toNat = 32 ∨ (9 ≤ c.toNat ∧ c.toNat ≤ 13)

def isDigitC (c : Char) : Bool := 48 ≤ c.toNat ∧ c.toNat ≤ 57

/-- Decimal value of a digit run, accumulator style. -/
def digitsVal : List Char → Nat → Nat
  | [], acc => acc
  | c :: cs, acc =>
      if isDigitC c then digitsVal cs (acc * 10 + (c.toNat - 48)) else acc

/-- C `atoi`: skip whitespace, optional sign, then a (possibly empty)
digit run; an empty run yields 0. -/
def atoi (s : List Char) : Int :=
  let s1 := s.dropWhile isSpaceC
  match s1 with
  | '-' :: rest => -(digitsVal rest 0 : Int)
  | '+' :: rest => (digitsVal rest 0 : Int)
  | _ => (digitsVal s1 0 : Int)

/-- One `%d` conversion of `sscanf`: skip whitespace, optional sign, then
at least one digit; returns the value and the unconsumed rest. -/
def scanInt (s : List Char) : Option (Int × List Char) :=
  let s1 := s.dropWhile isSpaceC
  match s1 with
  | '-' :: rest =>
      match rest.span isDigitC with
      | ([], _) => none
      | (ds, r) => some (-(digitsVal ds 0 : Int), r)
  | '+' :: rest =>
      match rest.span isDigitC with
      | ([], _) => none
      | (ds, r) => some ((digitsVal ds 0 : Int), r)
  | _ =>
      match s1.span isDigitC with
      | ([], _) => none
      | (ds, r) => some ((digitsVal ds 0 : Int), r)

/-- Result of `sscanf(data, "%d,%d,%d", ...)` when it returns 3: three `%d` conversions
separated by literal commas (a literal matches exactly the next input
character); trailing input is ignored. -/
def sscanf3 (s : List Char) : Option (Int × Int × Int) :=
  match scanInt s with
  | none => none
  | some (r, s1) =>
    match s1 with
    | ',' :: s2 =>
      match scanInt s2 with
      | none => none
      | some (g, s3) =>
        match s3 with
        | ',' :: s4 =>
          match scanInt s4 with
          | none => none
          | some (b, _) => some (r, g, b)
        | _ => none
    | _ => none

/-- Arduino `constrain(x, 0, 255)`. -/
def clampC (x : Int) : Int := if x < 0 then 0 else if 255 < x then 255 else x

/-- The function `parseSingle`: on `sscanf == 3`, clamp, calibrate and commit the flat
color, leave palette mode, and set the needs-render flag; otherwise no
change. -/
def parseSingle (st : St) (data : List Char) : St :=
  match sscanf3 data with
  | some (r, g, b) =>
      { st with
        currentR := calR (clampC r).toNat
        currentG := calG (clampC g).toNat
        currentB := calB (clampC b).toNat
        paletteMode := false
        needsUpdate := true }
  | none => st

/-- Advance `ptr` past one 6-character hex entry, consuming one optional
`':'` separator (`*ptr == ':'`; an exhausted string reads as NUL). -/
def advanceEntry (ptr : List Char) : List Char :=
  let p2 := ptr.drop 6
  if (p2.headD '\x00') = ':' then p2.drop 1 else p2

/-- The entry loop of `parsePalette`: for each of the remaining `k`
entries, require `strlen(ptr) ≥ 6`, decode and calibrate the three
channels into slot `i` of the palette arrays (in place), and advance.
On a short entry it stops, keeping the writes made so far, with
`ok := false`. -/
def paletteLoop :
    List Nat → List Nat → List Nat → List Char → Nat → Nat →
      (List Nat × List Nat × List Nat × Bool)
  | pR, pG, pB, _, _, 0 => (pR, pG, pB, true)
  | pR, pG, pB, ptr, i, k + 1 =>
      if ptr.length < 6 then (pR, pG, pB, false)
      else
        let r := calR (hexToByte (ptr.getD 0 '\x00') (ptr.getD 1 '\x00'))
        let g := calG (hexToByte (ptr.getD 2 '\x00') (ptr.getD 3 '\x00'))
        let b := calB (hexToByte (ptr.getD 4 '\x00') (ptr.getD 5 '\x00'))
        paletteLoop (pR.set i r) (pG.set i g) (pB.set i b)
          (advanceEntry ptr) (i + 1) k

/-- The function `parsePalette`: parse the count after the `P:` marker with `atoi`,
reject counts outside `[1, MAX_PALETTE]`, find the `':'` separator with
`strchr`, then run the entry loop; only on full success commit the size,
set palette mode and the needs-render flag.  Entry-loop writes into the
palette arrays persist even when the loop fails. -/
def parsePalette (st : St) (data : List Char) : St :=
  let ptr := data.drop 2
  let n : Int := atoi ptr
  if n < 1 ∨ (MAX_PALETTE : Int) < n then st
  else
    match ptr.dropWhile (fun c => c ≠ ':') with
    | [] => st
    | _ :: rest =>
        match paletteLoop st.pR st.pG st.pB rest 0 n.toNat with
        | (r, g, b, true) =>
            { st with pR := r, pG := g, pB := b,
                      paletteSize := n.toNat, paletteMode := true,
                      needsUpdate := true }
        | (r, g, b, false) => { st with pR := r, pG := g, pB := b }

/-- Dispatch a completed line: `P:`-prefixed lines go to `parsePalette`,
everything else to `parseSingle`.  The buffer is NUL-terminated at
`bufferPos`, so the line is its C-string view. -/
def dispatch (st : St) (raw : List Char) : St :=
  let line := toCStr raw
  if (line.headD '\x00') = 'P' ∧ ((line.drop 1).headD '\x00') = ':' then
    parsePalette st line
  else parseSingle st line

/-- One iteration of the serial read loop body on byte `c`:
terminators dispatch a non-empty buffer and reset the position; other
bytes append only while `bufferPos < 510`. -/
def drainByte (st : St) (c : Char) : St :=
  if c = '\n' ∨ c = '\r' then
    if st.buffer ≠ [] then { dispatch st st.buffer with buffer := [] }
    else { st with buffer := [] }
  else if st.buffer.length < 510 then { st with buffer := st.buffer ++ [c] }
  else st

/-- Phase 1 of `loop`: consume every immediately-available serial byte. -/
def drain (st : St) (input : List Char) : St := input.foldl drainByte st

/-- One pixel of the frame computed by the render step: in palette mode
with a positive size, block index `i / (NUM_LEDS / paletteSize)` clamped
to `paletteSize - 1`; otherwise the flat color.  Channels narrow to
`uint8_t` in the `CRGB` constructor. -/
def compositePixel (st : St) (i : Nat) : Nat × Nat × Nat :=
  if st.paletteMode = true ∧ 0 < st.paletteSize then
    let lpb := NUM_LEDS / st.paletteSize
    let idx0 := i / lpb
    let idx := if st.paletteSize ≤ idx0 then st.paletteSize - 1 else idx0
    (st.pR.getD idx 0 % 256, st.pG.getD idx 0 % 256, st.pB.getD idx 0 % 256)
  else (st.currentR % 256, st.currentG % 256, st.currentB % 256)

/-- The full frame written into `leds` by the render step. -/
def composite (st : St) : List (Nat × Nat × Nat) :=
  (List.range NUM_LEDS).map (compositePixel st)

/-- Phase 2 of `loop`: if the needs-render flag is set, overwrite the
frame buffer, transmit it (the emitted frame), and clear the flag. -/
def renderStep (st : St) : St × Option (List (Nat × Nat × Nat)) :=
  if st.needsUpdate then
    ({ st with leds := composite st, needsUpdate := false }, some (composite st))
  else (st, none)

/-- One call of `loop`, given the bytes queued on the serial port:
drain them all, then conditionally render exactly once. -/
def loopStep (st : St) (input : List Char) : St × Option (List (Nat × Nat × Nat)) :=
  renderStep (drain st input)

/-- Run a sequence of loop iterations, each with its queued input. -/
def runLoops (st : St) (inputs : List (List Char)) : St :=
  inputs.foldl (fun s i => (loopStep s i).1) st

/-- A state is reachable when some sequence of loop iterations produces
it from the startup state. -/
def Reachable (st : St) : Prop := ∃ inputs, st = runLoops initSt inputs

/-- Success of the entry loop of `parsePalette` depends only on the input
text and the remaining count: each of the `k` entries needs 6 characters. -/
def entriesOk : List Char → Nat → Bool
  | _, 0 => true
  | ptr, k + 1 => if ptr.length < 6 then false else entriesOk (advanceEntry ptr) k

/-- Whether `parsePalette` commits (reaches the success branch) on this
line; a function of the line alone. -/
def paletteOk (data : List Char) : Bool :=
  let ptr := data.drop 2
  let n : Int := atoi ptr
  if n < 1 ∨ (MAX_PALETTE : Int) < n then false
  else
    match ptr.dropWhile (fun c => c ≠ ':') with
    | [] => false
    | _ :: rest => entriesOk rest n.toNat

/-- Characters given a nonzero value by some branch of `hexToByte`. -/
def isHexChar (c : Char) : Bool :=
  (48 ≤ c.toNat ∧ c.toNat ≤ 57) ∨ (65 ≤ c.toNat ∧ c.toNat ≤ 70) ∨
    (97 ≤ c.toNat ∧ c.toNat ≤ 102)

/-- Modelled from the spec: a line that "yields exactly three
comma-separated integers in the shape `<int>,<int>,<int>`" — three
integer tokens (standard whitespace/sign handling, as the spec allows)
separated by commas, with nothing after the third token.  Used to compare
the spec's accepted-input shape with the `sscanf`-based source parser,
which ignores trailing input. -/
def specExactTriple (s : List Char) : Bool :=
  match scanInt s with
  | some (_, ',' :: s2) =>
      match scanInt s2 with
      | some (_, ',' :: s4) =>
          match scanInt s4 with
          | some (_, []) => true
          | _ => false
      | _ => false
  | _ => false

/-- State after a committed two-entry palette command. -/
def stC1a : St := parsePalette initSt ("P:2:414141:424242").data

/-- State after a subsequent palette command that fails midway: count 2
and the separator are accepted, the first entry `FF0000` parses, the
second entry has only 2 of 6 hex characters. -/
def stC1b : St := parsePalette stC1a ("P:2:FF0000:12").data

/-- A reachable state in palette mode: one loop iteration whose input is
a complete two-entry palette command. -/
def stC3w : St := runLoops initSt [("P:2:FF8040:010203\n").data]

/-- A state whose line buffer holds 510 pending non-terminator bytes,
built by draining 510 `'a'` bytes into the startup state. -/
def stC5f : St := drain initSt (List.replicate 510 'a')

/-- The invariant maintained by every loop iteration: committed palette
size within bounds (and positive in palette mode), all stored channel
values in `[0,255]`, palette arrays of length `MAX_PALETTE`, and line
buffer below the framer's cutoff. -/
def StInv (st : St) : Prop :=
  (st.paletteMode = true → 1 ≤ st.paletteSize)
  ∧ st.paletteSize ≤ MAX_PALETTE
  ∧ st.currentR ≤ 255 ∧ st.currentG ≤ 255 ∧ st.currentB ≤ 255
  ∧ (∀ x ∈ st.pR, x ≤ 255) ∧ (∀ x ∈ st.pG, x ≤ 255) ∧ (∀ x ∈ st.pB, x ≤ 255)
  ∧ st.pR.length = MAX_PALETTE ∧ st.pG.length = MAX_PALETTE
  ∧ st.pB.length = MAX_PALETTE
  ∧ st.buffer.length ≤ 510

/-! ## Helper lemmas -/

lemma hexNibble_le (c : Char) : hexNibble c ≤ 15 := by
  unfold hexNibble; split_ifs <;> omega

lemma shift_or_eq (a b : Nat) (ha : a ≤ 15) (hb : b ≤ 15) :
    (a <<< 4 ||| b) = 16 * a + b := by
  have h : ∀ x y : Fin 16, ((x.val <<< 4) ||| y.val) = 16 * x.val + y.val := by decide
  exact h ⟨a, by omega⟩ ⟨b, by omega⟩

lemma hexToByte_eq (hi lo : Char) :
    hexToByte hi lo = 16 * hexNibble hi + hexNibble lo :=
  shift_or_eq _ _ (hexNibble_le hi) (hexNibble_le lo)

lemma hexToByte_le (hi lo : Char) : hexToByte hi lo ≤ 255 := by
  rw [hexToByte_eq]
  have h1 := hexNibble_le hi
  have h2 := hexNibble_le lo
  omega

lemma calR_le (v : Nat) : calR v ≤ v := le_refl v

lemma calG_le (v : Nat) : calG v ≤ v := by
  unfold calG
  calc v * 3 / 4 ≤ v * 4 / 4 := Nat.div_le_div_right (by omega)
  _ = v := Nat.mul_div_cancel v (by omega)

lemma calB_le (v : Nat) : calB v ≤ v := by
  unfold calB
  calc v * 9 / 10 ≤ v * 10 / 10 := Nat.div_le_div_right (by omega)
  _ = v := Nat.mul_div_cancel v (by omega)

lemma clampC_bounds (x : Int) : 0 ≤ clampC x ∧ clampC x ≤ 255 := by
  unfold clampC; split_ifs <;> omega

lemma getD_le (l : List Nat) (i : Nat) (h : ∀ x ∈ l, x ≤ 255) :
    l.getD i 0 ≤ 255 := by
  rcases lt_or_le i l.length with hi | hi
  · rw [List.getD_eq_getElem?_getD, List.getElem?_eq_getElem hi]
    exact h _ (List.getElem_mem _)
  · rw [List.getD_eq_default _ _ hi]; omega

lemma set_all_le (l : List Nat) (i v : Nat) (hl : ∀ x ∈ l, x ≤ 255)
    (hv : v ≤ 255) : ∀ x ∈ l.set i v, x ≤ 255 := by
  intro x hx
  rcases List.mem_or_eq_of_mem_set hx with h | rfl
  · exact hl x h
  · exact hv

lemma paletteLoop_ok (k : Nat) :
    ∀ ptr pR pG pB i, (paletteLoop pR pG pB ptr i k).2.2.2 = entriesOk ptr k := by
  induction k with
  | zero => intro ptr pR pG pB i; rfl
  | succ k ih =>
      intro ptr pR pG pB i
      by_cases h : ptr.length < 6
      · simp [paletteLoop, entriesOk, h]
      · simp [paletteLoop, entriesOk, h, ih]

lemma paletteLoop_bounds (k : Nat) :
    ∀ ptr pR pG pB i,
      ((∀ x ∈ pR, x ≤ 255) → ∀ x ∈ (paletteLoop pR pG pB ptr i k).1, x ≤ 255)
      ∧ ((∀ x ∈ pG, x ≤ 255) → ∀ x ∈ (paletteLoop pR pG pB ptr i k).2.1, x ≤ 255)
      ∧ ((∀ x ∈ pB, x ≤ 255) → ∀ x ∈ (paletteLoop pR pG pB ptr i k).2.2.1, x ≤ 255)
      ∧ (paletteLoop pR pG pB ptr i k).1.length = pR.length
      ∧ (paletteLoop pR pG pB ptr i k).2.1.length = pG.length
      ∧ (paletteLoop pR pG pB ptr i k).2.2.1.length = pB.length := by
  induction k with
  | zero => intro ptr pR pG pB i; exact ⟨fun h => h, fun h => h, fun h => h, rfl, rfl, rfl⟩
  | succ k ih =>
      intro ptr pR pG pB i
      by_cases h : ptr.length < 6
      · simp [paletteLoop, h]
      · simp only [paletteLoop, if_neg h]
        obtain ⟨i1, i2, i3, i4, i5, i6⟩ := ih (advanceEntry ptr)
          (pR.set i (calR (hexToByte (ptr.getD 0 '\x00') (ptr.getD 1 '\x00'))))
          (pG.set i (calG (hexToByte (ptr.getD 2 '\x00') (ptr.getD 3 '\x00'))))
          (pB.set i (calB (hexToByte (ptr.getD 4 '\x00') (ptr.getD 5 '\x00'))))
          (i + 1)
        refine ⟨?_, ?_, ?_, ?_, ?_, ?_⟩
        · intro hb
          exact i1 (set_all_le _ _ _ hb
            (le_trans (calR_le _) (hexToByte_le _ _)))
        · intro hb
          exact i2 (set_all_le _ _ _ hb
            (le_trans (calG_le _) (hexToByte_le _ _)))
        · intro hb
          exact i3 (set_all_le _ _ _ hb
            (le_trans (calB_le _) (hexToByte_le _ _)))
        · rw [i4, List.length_set]
        · rw [i5, List.length_set]
        · rw [i6, List.length_set]

lemma initSt_inv : StInv initSt := by
  unfold StInv initSt MAX_PALETTE
  refine ⟨by simp, by simp, by simp, by simp, by simp, ?_, ?_, ?_, by simp, by simp, by simp, by simp⟩
  all_goals intro x hx
  all_goals rw [List.eq_of_mem_replicate hx]
  all_goals omega

lemma parseSingle_inv (st : St) (data : List Char) (h : StInv st) :
    StInv (parseSingle st data) := by
  obtain ⟨h1, h2, h3, h4, h5, h6, h7, h8, h9, h10, h11, h12⟩ := h
  unfold parseSingle
  cases hs : sscanf3 data with
  | none => exact ⟨h1, h2, h3, h4, h5, h6, h7, h8, h9, h10, h11, h12⟩
  | some t =>
      obtain ⟨r, g, b⟩ := t
      have cr := clampC_bounds r
      have cg := clampC_bounds g
      have cb := clampC_bounds b
      refine ⟨by simp, h2, ?_, ?_, ?_, h6, h7, h8, h9, h10, h11, h12⟩
      · show calR (clampC r).toNat ≤ 255
        exact le_trans (calR_le _) (by omega)
      · show calG (clampC g).toNat ≤ 255
        exact le_trans (calG_le _) (by omega)
      · show calB (clampC b).toNat ≤ 255
        exact le_trans (calB_le _) (by omega)

lemma parsePalette_inv (st : St) (data : List Char) (h : StInv st) :
    StInv (parsePalette st data) := by
  obtain ⟨h1, h2, h3, h4, h5, h6, h7, h8, h9, h10, h11, h12⟩ := h
  unfold parsePalette
  simp only []
  by_cases hg : (atoi (data.drop 2) < 1 ∨ (MAX_PALETTE : Int) < atoi (data.drop 2))
  · rw [if_pos hg]
    exact ⟨h1, h2, h3, h4, h5, h6, h7, h8, h9, h10, h11, h12⟩
  · rw [if_neg hg]
    rcases hm : (data.drop 2).dropWhile (fun c => c ≠ ':') with _ | ⟨a, rest⟩
    · exact ⟨h1, h2, h3, h4, h5, h6, h7, h8, h9, h10, h11, h12⟩
    · obtain ⟨b1, b2, b3, b4, b5, b6⟩ :=
        paletteLoop_bounds (atoi (data.drop 2)).toNat rest st.pR st.pG st.pB 0
      push_neg at hg
      rcases hr : paletteLoop st.pR st.pG st.pB rest 0 (atoi (data.drop 2)).toNat with
        ⟨lR, lG, lB, ok⟩
      rw [hr] at b1 b2 b3 b4 b5 b6
      simp only [hr]
      cases ok with
      | true =>
          have hg1 : 1 ≤ atoi (data.drop 2) := hg.1
          have hg2 : atoi (data.drop 2) ≤ (MAX_PALETTE : Int) := hg.2
          refine ⟨?_, ?_, h3, h4, h5, b1 h6, b2 h7, b3 h8,
            b4.trans h9, b5.trans h10, b6.trans h11, h12⟩
          · intro _
            show 1 ≤ (atoi (data.drop 2)).toNat
            omega
          · show (atoi (data.drop 2)).toNat ≤ MAX_PALETTE
            omega
      | false =>
          exact ⟨h1, h2, h3, h4, h5,
            b1 h6, b2 h7, b3 h8,
            b4.trans h9, b5.trans h10, b6.trans h11, h12⟩

lemma dispatch_inv (st : St) (raw : List Char) (h : StInv st) :
    StInv (dispatch st raw) := by
  simp only [dispatch]
  split_ifs with hp
  · exact parsePalette_inv st _ h
  · exact parseSingle_inv st _ h

lemma drainByte_inv (st : St) (c : Char) (h : StInv st) :
    StInv (drainByte st c) := by
  obtain ⟨h1, h2, h3, h4, h5, h6, h7, h8, h9, h10, h11, h12⟩ := h
  unfold drainByte
  split_ifs with ht hne hlen
  · obtain ⟨d1, d2, d3, d4, d5, d6, d7, d8, d9, d10, d11, _⟩ :=
      dispatch_inv st st.buffer ⟨h1, h2, h3, h4, h5, h6, h7, h8, h9, h10, h11, h12⟩
    exact ⟨d1, d2, d3, d4, d5, d6, d7, d8, d9, d10, d11, by simp⟩
  · exact ⟨h1, h2, h3, h4, h5, h6, h7, h8, h9, h10, h11, by simp⟩
  · exact ⟨h1, h2, h3, h4, h5, h6, h7, h8, h9, h10, h11, by simp; omega⟩
  · exact ⟨h1, h2, h3, h4, h5, h6, h7, h8, h9, h10, h11, h12⟩

lemma drain_inv (input : List Char) :
    ∀ st, StInv st → StInv (drain st input) := by
  induction input with
  | nil => intro st h; exact h
  | cons c cs ih =>
      intro st h
      have : drain st (c :: cs) = drain (drainByte st c) cs := rfl
      rw [this]
      exact ih _ (drainByte_inv st c h)

lemma renderStep_inv (st : St) (h : StInv st) : StInv (renderStep st).1 := by
  obtain ⟨h1, h2, h3, h4, h5, h6, h7, h8, h9, h10, h11, h12⟩ := h
  unfold renderStep
  split_ifs with hu
  · exact ⟨h1, h2, h3, h4, h5, h6, h7, h8, h9, h10, h11, h12⟩
  · exact ⟨h1, h2, h3, h4, h5, h6, h7, h8, h9, h10, h11, h12⟩

lemma runLoops_inv (inputs : List (List Char)) :
    ∀ st, StInv st → StInv (runLoops st inputs) := by
  induction inputs with
  | nil => intro st h; exact h
  | cons i rest ih =>
      intro st h
      have : runLoops st (i :: rest) = runLoops (loopStep st i).1 rest := rfl
      rw [this]
      exact ih _ (renderStep_inv _ (drain_inv i st h))

lemma reachable_inv (st : St) (h : Reachable st) : StInv st := by
  obtain ⟨inputs, rfl⟩ := h
  exact runLoops_inv inputs initSt initSt_inv

lemma drain_nonterm_buffer (k : Nat) :
    ∀ st : St, st.buffer.length + k ≤ 510 →
      (drain st (List.replicate k 'a')).buffer = st.buffer ++ List.replicate k 'a' := by
  induction k with
  | zero => intro st _; simp [drain]
  | succ k ih =>
      intro st h
      have hstep : drain st (List.replicate (k + 1) 'a')
          = drain (drainByte st 'a') (List.replicate k 'a') := rfl
      have hb : (drainByte st 'a').buffer = st.buffer ++ ['a'] := by
        unfold drainByte
        rw [if_neg (by decide), if_pos (by omega)]
      rw [hstep, ih _ (by rw [hb]; simp; omega), hb]
      simp [List.replicate_succ]

/-! ## Claim theorems -/

/-- C1, counterexample.  The claim says a palette command that fails
after its count and first separator were accepted leaves "every stored
palette entry exactly as it was" and leaves the next rendered frame
unchanged.  On the code, `parsePalette` writes decoded entries into the
live palette arrays as it goes: after committing `P:2:414141:424242`,
the failing command `P:2:FF0000:12` (count 2 accepted, separator
accepted, first entry parsed, second entry too short) overwrites palette
slot 0 (65 becomes 255) even though the command is rejected, and pixel 0
of a subsequent composite changes accordingly. -/
theorem parsePalette_scratch_writes :
    atoi ((("P:2:FF0000:12").data).drop 2) = 2
    ∧ stC1b.paletteMode = stC1a.paletteMode
    ∧ stC1b.paletteSize = stC1a.paletteSize
    ∧ stC1b.needsUpdate = stC1a.needsUpdate
    ∧ stC1b.pR ≠ stC1a.pR
    ∧ stC1a.pR.getD 0 0 = 65 ∧ stC1b.pR.getD 0 0 = 255
    ∧ compositePixel stC1b 0 ≠ compositePixel stC1a 0 := by decide

/-- C1, amended.  A palette command on which `parsePalette` does not
reach its commit point (in particular one failing after count and
separator were accepted) leaves the mode flag, palette size, flat color,
needs-render flag, line buffer and frame buffer unchanged; only the
palette scratch arrays may have been partially overwritten. -/
theorem parsePalette_fail_preserves_control (st : St) (data : List Char)
    (h : paletteOk data = false) :
    (parsePalette st data).paletteMode = st.paletteMode
    ∧ (parsePalette st data).paletteSize = st.paletteSize
    ∧ (parsePalette st data).currentR = st.currentR
    ∧ (parsePalette st data).currentG = st.currentG
    ∧ (parsePalette st data).currentB = st.currentB
    ∧ (parsePalette st data).needsUpdate = st.needsUpdate
    ∧ (parsePalette st data).buffer = st.buffer
    ∧ (parsePalette st data).leds = st.leds := by
  unfold parsePalette
  unfold paletteOk at h
  by_cases hg : (atoi (data.drop 2) < 1 ∨ (MAX_PALETTE : Int) < atoi (data.drop 2))
  · rw [if_pos hg]
    exact ⟨rfl, rfl, rfl, rfl, rfl, rfl, rfl, rfl⟩
  · rw [if_neg hg]
    rw [if_neg hg] at h
    rcases hm : (data.drop 2).dropWhile (fun c => c ≠ ':') with _ | ⟨a, rest⟩
    · exact ⟨rfl, rfl, rfl, rfl, rfl, rfl, rfl, rfl⟩
    · rw [hm] at h
      have hok := paletteLoop_ok (atoi (data.drop 2)).toNat rest st.pR st.pG st.pB 0
      have he : entriesOk rest (atoi (data.drop 2)).toNat = false := h
      rcases hr : paletteLoop st.pR st.pG st.pB rest 0 (atoi (data.drop 2)).toNat with
        ⟨lR, lG, lB, ok⟩
      rw [hr] at hok
      simp only [hr]
      cases ok with
      | true =>
          rw [he] at hok
          simp at hok
      | false => exact ⟨rfl, rfl, rfl, rfl, rfl, rfl, rfl, rfl⟩

/-- C1 witness: the control-state preservation applied to the concrete
failing command. -/
theorem parsePalette_fail_preserves_control_witness :
    paletteOk (("P:2:FF0000:12").data) = false
    ∧ (parsePalette initSt (("P:2:FF0000:12").data)).paletteSize = initSt.paletteSize :=
  ⟨by decide,
   (parsePalette_fail_preserves_control initSt (("P:2:FF0000:12").data) (by decide)).2.1⟩

/-- C5, counterexample.  The claim says a non-terminator byte is appended
iff the buffer length is strictly below capacity minus one, i.e. below
511 for the 512-byte `inputBuffer`.  The code's cutoff is
`bufferPos < 510`: after 510 drained bytes the length is 510, which is
still below 511, yet the next byte is dropped. -/
theorem framer_drops_at_510 :
    stC5f.buffer.length = 510 ∧ (510 : Nat) < 512 - 1
    ∧ (drainByte stC5f 'b').buffer = stC5f.buffer := by
  have hb : stC5f.buffer = List.replicate 510 'a' :=
    drain_nonterm_buffer 510 initSt
      (show ([] : List Char).length + 510 ≤ 510 by simp)
  refine ⟨by rw [hb, List.length_replicate], by norm_num, ?_⟩
  unfold drainByte
  rw [if_neg (by decide), if_neg (by rw [hb, List.length_replicate]; omega)]

/-- C5, amended.  In every reachable state the line-buffer length is at
most 510 (capacity minus two, hence also never exceeding capacity minus
one), and a non-terminator byte is appended iff the length is strictly
below 510; otherwise it is dropped. -/
theorem framer_append_iff (st : St) (h : Reachable st) :
    st.buffer.length ≤ 510
    ∧ ∀ c : Char, ¬(c = '\n' ∨ c = '\r') →
        ((drainByte st c).buffer = st.buffer ++ [c] ↔ st.buffer.length < 510) := by
  obtain ⟨-, -, -, -, -, -, -, -, -, -, -, h12⟩ := reachable_inv st h
  refine ⟨h12, ?_⟩
  intro c hc
  unfold drainByte
  rw [if_neg hc]
  by_cases hl : st.buffer.length < 510
  · rw [if_pos hl]
    simp [hl]
  · rw [if_neg hl]
    simp [hl]

/-- C5 witness: the append-iff condition applied at the startup state. -/
theorem framer_append_iff_witness :
    initSt.buffer.length ≤ 510
    ∧ ((drainByte initSt 'x').buffer = initSt.buffer ++ ['x']
        ↔ initSt.buffer.length < 510) :=
  ⟨(framer_append_iff initSt ⟨[], rfl⟩).1,
   (framer_append_iff initSt ⟨[], rfl⟩).2 'x' (by decide)⟩

/-- C7.  When the count field of a palette command parses (by `atoi`,
just after the two prefix characters) to a value below 1 or above
`MAX_PALETTE`, `parsePalette` returns the state completely unchanged:
mode, palette size, every palette entry, flat color and needs-render
flag included. -/
theorem paletteCount_guard (st : St) (data : List Char)
    (h : atoi (data.drop 2) < 1 ∨ (MAX_PALETTE : Int) < atoi (data.drop 2)) :
    parsePalette st data = st := by
  unfold parsePalette
  rw [if_pos h]

/-- C7 witness: a count of 50 = MAX_PALETTE + 1 is rejected with no state
change. -/
theorem paletteCount_guard_witness :
    (atoi ((("P:50:FFFFFF").data).drop 2) < 1
      ∨ (MAX_PALETTE : Int) < atoi ((("P:50:FFFFFF").data).drop 2))
    ∧ parsePalette initSt (("P:50:FFFFFF").data) = initSt :=
  ⟨by decide, paletteCount_guard initSt (("P:50:FFFFFF").data) (by decide)⟩

/-- C8.  Hex decoding is total and case-insensitive: `hexToByte` is the
high nibble times 16 plus the low nibble, always at most 255; decimal
digits and both uppercase and lowercase hex letters decode to their hex
values; every other character contributes a zero nibble. -/
theorem hexToByte_total_spec :
    (∀ hi lo, hexToByte hi lo = 16 * hexNibble hi + hexNibble lo
      ∧ hexToByte hi lo ≤ 255)
    ∧ (∀ c, isHexChar c = false → hexNibble c = 0)
    ∧ (∀ d : Fin 10, hexNibble (Char.ofNat (48 + d.val)) = d.val)
    ∧ (∀ d : Fin 6, hexNibble (Char.ofNat (65 + d.val)) = 10 + d.val
        ∧ hexNibble (Char.ofNat (97 + d.val)) = 10 + d.val) := by
  refine ⟨fun hi lo => ⟨hexToByte_eq hi lo, hexToByte_le hi lo⟩, ?_, by decide, by decide⟩
  intro c hc
  unfold isHexChar at hc
  simp only [decide_eq_false_iff_not] at hc
  unfold hexNibble
  split_ifs with h1 h2 h3
  · exact absurd (Or.inl h1) hc
  · exact absurd (Or.inr (Or.inl h2)) hc
  · exact absurd (Or.inr (Or.inr h3)) hc
  · rfl

/-- C8 witness: a non-hex character decodes to a zero nibble. -/
theorem hexToByte_total_spec_witness :
    isHexChar 'z' = false ∧ hexNibble 'z' = 0 :=
  ⟨by decide, hexToByte_total_spec.2.1 'z' (by decide)⟩

/-- C6, counterexample.  The claim says the parser accepts a line iff it
is exactly three comma-separated integers in the shape
`<int>,<int>,<int>`.  The line `1,2,3,4` is not of that shape (it has a
fourth integer), yet `sscanf`-style matching succeeds on its first three
integers and the command is accepted and committed. -/
theorem parseSingle_accepts_trailing :
    specExactTriple (("1,2,3,4").data) = false
    ∧ (parseSingle initSt (("1,2,3,4").data)).needsUpdate = true
    ∧ (parseSingle initSt (("1,2,3,4").data)).paletteMode = false
    ∧ (parseSingle initSt (("1,2,3,4").data)).currentR = 1 := by decide

/-- C6, amended.  `parseSingle` accepts a line iff an initial segment of
it matches `%d,%d,%d` (standard `sscanf` integer parsing: leading
whitespace and an optional sign before each integer, any trailing
content ignored).  On rejection the state is returned unchanged; on
success each parsed value is clamped into `[0,255]`, calibrated with
truncation, committed as the flat color, palette mode is left and the
needs-render flag is set, with all other state untouched. -/
theorem parseSingle_shape_spec (st : St) (data : List Char) :
    (sscanf3 data = none → parseSingle st data = st)
    ∧ (∀ r g b : Int, sscanf3 data = some (r, g, b) →
        (parseSingle st data).paletteMode = false
        ∧ (parseSingle st data).needsUpdate = true
        ∧ (parseSingle st data).currentR = calR (clampC r).toNat
        ∧ (parseSingle st data).currentG = calG (clampC g).toNat
        ∧ (parseSingle st data).currentB = calB (clampC b).toNat
        ∧ (parseSingle st data).paletteSize = st.paletteSize
        ∧ (parseSingle st data).pR = st.pR
        ∧ (parseSingle st data).pG = st.pG
        ∧ (parseSingle st data).pB = st.pB
        ∧ (0 ≤ clampC r ∧ clampC r ≤ 255)
        ∧ (0 ≤ clampC g ∧ clampC g ≤ 255)
        ∧ (0 ≤ clampC b ∧ clampC b ≤ 255)
        ∧ (0 ≤ r → r ≤ 255 → clampC r = r)) := by
  constructor
  · intro h
    unfold parseSingle
    rw [h]
  · intro r g b h
    unfold parseSingle
    rw [h]
    exact ⟨rfl, rfl, rfl, rfl, rfl, rfl, rfl, rfl, rfl,
      clampC_bounds r, clampC_bounds g, clampC_bounds b,
      fun h1 h2 => by unfold clampC; split_ifs <;> omega⟩

/-- C6 witness: the success path applied to the concrete line `8,9,10`. -/
theorem parseSingle_shape_spec_witness :
    sscanf3 (("8,9,10").data) = some (8, 9, 10)
    ∧ (parseSingle initSt (("8,9,10").data)).currentG = calG (clampC 9).toNat :=
  ⟨by decide,
   ((parseSingle_shape_spec initSt (("8,9,10").data)).2 8 9 10 (by decide)).2.2.2.1⟩

/-- C2.  Each `loop` call is two-phase: the queued input is drained in
order and in full (draining `xs ++ ys` is draining `xs` then `ys`, so
every complete command in the queue is applied to the render state)
before the render decision is even examined; a frame is transmitted iff
the needs-render flag is set after the full drain, at most one frame per
call; the transmitted frame is the composite of the fully drained state;
and after the call the needs-render flag is clear. -/
theorem loop_two_phase (st : St) (xs ys : List Char) :
    loopStep st (xs ++ ys) = renderStep (drain (drain st xs) ys)
    ∧ ((loopStep st xs).2 = none ↔ (drain st xs).needsUpdate = false)
    ∧ ((drain st xs).needsUpdate = true →
        (loopStep st xs).2 = some (composite (drain st xs))
        ∧ (loopStep st xs).1.leds = composite (drain st xs))
    ∧ (loopStep st xs).1.needsUpdate = false := by
  refine ⟨?_, ?_, ?_, ?_⟩
  · unfold loopStep drain
    rw [List.foldl_append]
  · unfold loopStep renderStep
    by_cases h : (drain st xs).needsUpdate
    · rw [if_pos h]
      simp [h]
    · rw [if_neg h]
      simp only [Bool.not_eq_true] at h
      simp [h]
  · intro h
    unfold loopStep renderStep
    rw [if_pos (show (drain st xs).needsUpdate = true by rw [h])]
    exact ⟨rfl, rfl⟩
  · unfold loopStep renderStep
    by_cases h : (drain st xs).needsUpdate
    · rw [if_pos h]
    · rw [if_neg h]
      simpa using h

/-- C2 witness: after draining the complete command `0,0,0` the flag is
set and the loop call emits the composite of the drained state. -/
theorem loop_two_phase_witness :
    (drain initSt (("0,0,0\n").data)).needsUpdate = true
    ∧ (loopStep initSt (("0,0,0\n").data)).2
        = some (composite (drain initSt (("0,0,0\n").data))) :=
  ⟨by decide,
   ((loop_two_phase initSt (("0,0,0\n").data) []).2.2.1 (by decide)).1⟩

/-- C4.  A flat-color command whose three parsed values lie in
`[0,255]` makes the next composite uniform: all `NUM_LEDS` pixels equal
the calibrated triple — red times 1.00, green times 0.75 and blue times
0.90, each truncated to an integer (exactly `r`, `g*3/4`, `b*9/10`). -/
theorem flat_uniform (st : St) (data : List Char) (r g b : Int)
    (hs : sscanf3 data = some (r, g, b))
    (hr0 : 0 ≤ r) (hr1 : r ≤ 255) (hg0 : 0 ≤ g) (hg1 : g ≤ 255)
    (hb0 : 0 ≤ b) (hb1 : b ≤ 255) :
    composite (parseSingle st data)
      = List.replicate NUM_LEDS (r.toNat, g.toNat * 3 / 4, b.toNat * 9 / 10) := by
  have hcr : clampC r = r := by unfold clampC; split_ifs <;> omega
  have hcg : clampC g = g := by unfold clampC; split_ifs <;> omega
  have hcb : clampC b = b := by unfold clampC; split_ifs <;> omega
  unfold parseSingle
  simp only [hs]
  rw [hcr, hcg, hcb]
  unfold composite
  have hpx : ∀ i, compositePixel
      { st with currentR := calR r.toNat, currentG := calG g.toNat,
                currentB := calB b.toNat, paletteMode := false,
                needsUpdate := true } i
      = (r.toNat, g.toNat * 3 / 4, b.toNat * 9 / 10) := by
    intro i
    unfold compositePixel
    rw [if_neg (by simp)]
    have e1 : calR r.toNat % 256 = r.toNat :=
      Nat.mod_eq_of_lt (by unfold calR; omega)
    have e2 : calG g.toNat % 256 = g.toNat * 3 / 4 := by
      unfold calG
      exact Nat.mod_eq_of_lt (by
        have : g.toNat * 3 / 4 ≤ g.toNat := calG_le g.toNat
        omega)
    have e3 : calB b.toNat % 256 = b.toNat * 9 / 10 := by
      unfold calB
      exact Nat.mod_eq_of_lt (by
        have : b.toNat * 9 / 10 ≤ b.toNat := calB_le b.toNat
        omega)
    rw [e1, e2, e3]
  calc (List.range NUM_LEDS).map (compositePixel _)
      = (List.range NUM_LEDS).map
          (fun _ => (r.toNat, g.toNat * 3 / 4, b.toNat * 9 / 10)) := by
        exact List.map_congr_left (fun i _ => hpx i)
    _ = List.replicate NUM_LEDS (r.toNat, g.toNat * 3 / 4, b.toNat * 9 / 10) := by
        rw [List.map_const', List.length_range]

lemma clamp_eq_min (n idx0 : Nat) (h : 1 ≤ n) :
    (if n ≤ idx0 then n - 1 else idx0) = min idx0 (n - 1) := by
  rcases le_or_lt n idx0 with h1 | h1
  · rw [if_pos h1, Nat.min_eq_right (by omega)]
  · rw [if_neg (by omega), Nat.min_eq_left (by omega)]

lemma composite_getD (st : St) (i : Nat) (hi : i < NUM_LEDS) :
    (composite st).getD i (0, 0, 0) = compositePixel st i := by
  unfold composite
  rw [List.getD_eq_getElem?_getD, List.getElem?_map,
    List.getElem?_eq_getElem (by simpa [List.length_range] using hi)]
  simp [List.getElem_range]

/-- C3.  For a committed palette (reachable state in palette mode, whose
size is then within `[1, MAX_PALETTE]`), the composite assigns pixel
`i < NUM_LEDS` the palette entry with index
`min(i / (NUM_LEDS / paletteSize), paletteSize - 1)`: contiguous blocks
of `NUM_LEDS / paletteSize` pixels, the final block absorbing the
remainder, and every one of the `NUM_LEDS` pixels assigned. -/
theorem palette_blocks (st : St) (h : Reachable st)
    (hm : st.paletteMode = true) (i : Nat) (hi : i < NUM_LEDS) :
    1 ≤ st.paletteSize ∧ st.paletteSize ≤ MAX_PALETTE
    ∧ (composite st).length = NUM_LEDS
    ∧ (composite st).getD i (0, 0, 0)
      = (st.pR.getD (min (i / (NUM_LEDS / st.paletteSize)) (st.paletteSize - 1)) 0,
         st.pG.getD (min (i / (NUM_LEDS / st.paletteSize)) (st.paletteSize - 1)) 0,
         st.pB.getD (min (i / (NUM_LEDS / st.paletteSize)) (st.paletteSize - 1)) 0) := by
  obtain ⟨h1, h2, _, _, _, h6, h7, h8, _, _, _, _⟩ := reachable_inv st h
  have hsz : 1 ≤ st.paletteSize := h1 hm
  refine ⟨hsz, h2,
    by unfold composite; rw [List.length_map, List.length_range], ?_⟩
  rw [composite_getD st i hi]
  simp only [compositePixel]
  rw [if_pos ⟨hm, by omega⟩, clamp_eq_min _ _ hsz]
  rw [Nat.mod_eq_of_lt (by
      have := getD_le st.pR
        (min (i / (NUM_LEDS / st.paletteSize)) (st.paletteSize - 1)) h6
      omega),
    Nat.mod_eq_of_lt (by
      have := getD_le st.pG
        (min (i / (NUM_LEDS / st.paletteSize)) (st.paletteSize - 1)) h7
      omega),
    Nat.mod_eq_of_lt (by
      have := getD_le st.pB
        (min (i / (NUM_LEDS / st.paletteSize)) (st.paletteSize - 1)) h8
      omega)]

/-- C3 witness: the block assignment applied at pixel 0 of a concrete
reachable two-entry palette state. -/
theorem palette_blocks_witness :
    stC3w.paletteMode = true
    ∧ (composite stC3w).getD 0 (0, 0, 0)
      = (stC3w.pR.getD (min (0 / (NUM_LEDS / stC3w.paletteSize)) (stC3w.paletteSize - 1)) 0,
         stC3w.pG.getD (min (0 / (NUM_LEDS / stC3w.paletteSize)) (stC3w.paletteSize - 1)) 0,
         stC3w.pB.getD (min (0 / (NUM_LEDS / stC3w.paletteSize)) (stC3w.paletteSize - 1)) 0) :=
  ⟨by decide,
   (palette_blocks stC3w ⟨[("P:2:FF8040:010203\n").data], rfl⟩
     (by decide) 0 (by decide)).2.2.2⟩

/-- C9.  `MAX_PALETTE` (49) does not exceed `NUM_LEDS` (256), and in
every reachable state, under the render step's palette-branch guard
(`paletteMode && paletteSize > 0`) both divisors of the palette branch
are nonzero: `paletteSize ≠ 0` and
`ledsPerBlock = NUM_LEDS / paletteSize ≥ 1`, so neither
`NUM_LEDS / paletteSize` nor `i / ledsPerBlock` divides by zero. -/
theorem render_div_safe (st : St) (h : Reachable st) :
    MAX_PALETTE ≤ NUM_LEDS
    ∧ (st.paletteMode = true ∧ 0 < st.paletteSize →
        st.paletteSize ≠ 0
        ∧ NUM_LEDS / st.paletteSize ≠ 0
        ∧ 1 ≤ NUM_LEDS / st.paletteSize) := by
  obtain ⟨_, h2, _⟩ := reachable_inv st h
  refine ⟨by norm_num [MAX_PALETTE, NUM_LEDS], ?_⟩
  rintro ⟨_, hpos⟩
  have hmn : MAX_PALETTE ≤ NUM_LEDS := by norm_num [MAX_PALETTE, NUM_LEDS]
  have hle : st.paletteSize ≤ NUM_LEDS := by omega
  have hdiv : 1 ≤ NUM_LEDS / st.paletteSize := (Nat.one_le_div_iff hpos).2 hle
  exact ⟨by omega, by omega, hdiv⟩

/-- C9 witness: the divisor facts at a concrete reachable palette-mode
state. -/
theorem render_div_safe_witness :
    stC3w.paletteSize ≠ 0 ∧ NUM_LEDS / stC3w.paletteSize ≠ 0
    ∧ 1 ≤ NUM_LEDS / stC3w.paletteSize :=
  (render_div_safe stC3w ⟨[("P:2:FF8040:010203\n").data], rfl⟩).2
    ⟨by decide, by decide⟩

/-- C10.  Every reachable state keeps all stored channel values in
`[0,255]` (values are `Nat`, so nonnegativity is intrinsic): the flat
color and every palette entry are at most 255.  The supporting facts the
claim lists also hold: hex decoding yields at most 255, flat inputs are
clamped into `[0,255]`, and each calibration (factor at most 1.0,
truncated) never increases a value. -/
theorem channels_in_range (st : St) (h : Reachable st) :
    st.currentR ≤ 255 ∧ st.currentG ≤ 255 ∧ st.currentB ≤ 255
    ∧ (∀ x ∈ st.pR, x ≤ 255) ∧ (∀ x ∈ st.pG, x ≤ 255) ∧ (∀ x ∈ st.pB, x ≤ 255)
    ∧ (∀ hi lo, hexToByte hi lo ≤ 255)
    ∧ (∀ x : Int, 0 ≤ clampC x ∧ clampC x ≤ 255)
    ∧ (∀ v : Nat, calR v ≤ v ∧ calG v ≤ v ∧ calB v ≤ v) := by
  obtain ⟨_, _, h3, h4, h5, h6, h7, h8, _⟩ := reachable_inv st h
  exact ⟨h3, h4, h5, h6, h7, h8, hexToByte_le, clampC_bounds,
    fun v => ⟨calR_le v, calG_le v, calB_le v⟩⟩

/-- C10 witness: the bounds at the startup state, plus a concrete hex
decode bound. -/
theorem channels_in_range_witness :
    initSt.currentR ≤ 255 ∧ hexToByte 'F' 'F' ≤ 255 :=
  ⟨(channels_in_range initSt ⟨[], rfl⟩).1,
   (channels_in_range initSt ⟨[], rfl⟩).2.2.2.2.2.2.1 'F' 'F'⟩

/-- C4 witness: the command `10,20,30` renders all pixels as
`(10, 15, 27)`. -/
theorem flat_uniform_witness :
    sscanf3 (("10,20,30").data) = some (10, 20, 30)
    ∧ composite (parseSingle initSt (("10,20,30").data))
        = List.replicate NUM_LEDS
            (Int.toNat 10, Int.toNat 20 * 3 / 4, Int.toNat 30 * 9 / 10) :=
  ⟨by decide,
   flat_uniform initSt (("10,20,30").data) 10 20 30 (by decide)
     (by norm_num) (by norm_num) (by norm_num) (by norm_num)
     (by norm_num) (by norm_num)⟩

end WebcamLED
